import Mathlib

/-!
Verification of the IRQ-watch core of the `knit` debug tool.

The data model and the sampling loop are embedded shallowly from
`cmd/knit/cmd/irqwatch.go`. The `pkg/irqs` collaborator (snapshot type,
`Delta`, `Clone`) is not part of the provided sources, so those definitions
are modelled from the specification text and marked as such.

Conventions of the embedding:
- Go maps become association lists (`List (key × value)`); lookups return
  the first matching entry.
- The asynchronous environment of the loop (the ticker, the interrupt
  signal channel, and the outcome of each `ReadStats` call) is an explicit
  list of events consumed in order by the loop's `select`.
- Printing is replaced by a trace of structured emission events carrying
  exactly the snapshot arguments the Go code passes to the dump helpers;
  the dump helpers themselves are modelled as pure functions returning the
  data they would render.
- A run over a finite event list ends `ok` (the Go function returned nil),
  `err` (it returned an error), or `pending` (the event list was exhausted
  while the loop was still blocked in `select`).
-/

/-- Errors are opaque descriptive messages, as in Go. -/
abbrev Err := String

/-- Per-CPU counter table: interrupt-line name to cumulative count.
Modelled from the spec: "a mapping from interrupt-line name (string label)
to cumulative count (non-negative integer)". -/
abbrev Counter := List (String × Nat)

/-- Snapshot / delta shape. Modelled from the spec: "a mapping from CPU
identifier (non-negative integer) to a mapping from interrupt-line name to
cumulative count". The Go type `irqs.Stats` is `map[int]Counter`. -/
abbrev Stats := List (Nat × Counter)

/-- First-match lookup of an interrupt line's value in a counter table. -/
def lookupIrq (c : Counter) (name : String) : Option Nat :=
  match c with
  | [] => none
  | (n, v) :: rest => if n = name then some v else lookupIrq rest name

/-- First-match lookup of a CPU's counter table in a snapshot. -/
def lookupCPU (s : Stats) (cpu : Nat) : Option Counter :=
  match s with
  | [] => none
  | (c, tbl) :: rest => if c = cpu then some tbl else lookupCPU rest cpu

/-- Value of one (cpu, irq) cell of a snapshot, when present. -/
def statsLookup (s : Stats) (cpu : Nat) (irq : String) : Option Nat :=
  (lookupCPU s cpu).bind (fun c => lookupIrq c irq)

/-- Modelled from the spec (the `pkg/irqs` source is not available): one
delta cell, "clamp at 0 if counters wrapped/reset — negative raw difference
is reported as 0". -/
def deltaVal (earlier later : Nat) : Nat :=
  if later < earlier then 0 else later - earlier

/-- Modelled from the spec (the `pkg/irqs` source is not available): the
counter table of one CPU of the delta. "For each interrupt label present in
`later[cpu]`, if also present in `earlier[cpu]`, output
`later[cpu][label] - earlier[cpu][label]` (clamped at 0). If absent in
`earlier[cpu]`, omit from output." -/
def deltaCounter (earlier : Stats) (cpu : Nat) (laterTbl : Counter) : Counter :=
  laterTbl.filterMap (fun p =>
    match statsLookup earlier cpu p.1 with
    | none => none
    | some ve => some (p.1, deltaVal ve p.2))

/-- Modelled from the spec (the `pkg/irqs` source is not available):
`Delta(earlier, later)` keeps the shape of `later` and fills each cell with
the clamped increase; cells absent from `earlier` are omitted. In the Go
code this is the method call `earlier.Delta(later)`. -/
def Stats.Delta (earlier later : Stats) : Stats :=
  later.map (fun p => (p.1, deltaCounter earlier p.1 p.2))

/-- Modelled from the spec (the `pkg/irqs` source is not available): a
clone is a deep value copy of a snapshot; in a pure embedding it equals the
original. -/
def Stats.Clone (s : Stats) : Stats := s

/-- `irqWatchOptions` from irqwatch.go: the period string, the maximum
number of watch loops (`-1` = forever), and the verbosity level. -/
structure IrqWatchOptions where
  period : String
  maxRuns : Int
  verbose : Int
deriving DecidableEq

/-- The slice of `knitOptions` the watch loop consumes: the JSON/text
output switch and the configured CPU set (`cpus.ToSlice()` order). -/
structure KnitOptions where
  jsonOutput : Bool
  cpus : List Nat
deriving DecidableEq

/-- Equality of `Except` values is decidable when both components are. -/
def exceptDecEq {ε α : Type} [DecidableEq ε] [DecidableEq α] : DecidableEq (Except ε α)
  | Except.ok a, Except.ok b =>
    if h : a = b then isTrue (congrArg Except.ok h)
    else isFalse (fun hc => h (Except.ok.inj hc))
  | Except.error a, Except.error b =>
    if h : a = b then isTrue (congrArg Except.error h)
    else isFalse (fun hc => h (Except.error.inj hc))
  | Except.ok _, Except.error _ => isFalse (fun hc => Except.noConfusion hc)
  | Except.error _, Except.ok _ => isFalse (fun hc => Except.noConfusion hc)

instance {ε α : Type} [DecidableEq ε] [DecidableEq α] : DecidableEq (Except ε α) :=
  exceptDecEq

/-- One event the loop's `select` can observe: the interrupt signal, or a
ticker fire together with the outcome of the `ReadStats` call the loop
performs on it. -/
inductive Ev where
  | signal : Ev
  | tick : Except Err Stats → Ev
deriving DecidableEq

/-- Observable actions of a run: a `ReadStats` call, a per-tick delta
emission (with the snapshots passed to the dump helper), and a summary
emission (likewise). -/
inductive TraceEv where
  | readStats : TraceEv
  | emitDelta : Bool → Stats → Stats → TraceEv
  | emitSummary : Bool → Stats → Stats → TraceEv
deriving DecidableEq

/-- Outcome of a run on a finite event list. -/
inductive RunResult where
  | ok : List TraceEv → RunResult
  | err : Err → List TraceEv → RunResult
  | pending : List TraceEv → RunResult
deriving DecidableEq

/-- The external world of one `watchIRQs` call: the result of
`time.ParseDuration(opts.period)`, the result of the baseline `ReadStats`,
and the sequence of select events the run will observe. -/
structure Env where
  parsePeriod : Except Err Nat
  initRead : Except Err Stats
  events : List Ev
deriving DecidableEq

/-- Prefix a trace fragment onto whichever outcome a run produced. -/
def prependTrace (pre : List TraceEv) : RunResult → RunResult
  | .ok tr => .ok (pre ++ tr)
  | .err e tr => .err e (pre ++ tr)
  | .pending tr => .pending (pre ++ tr)

/-- The trace of a run outcome. -/
def traceOf : RunResult → List TraceEv
  | .ok tr => tr
  | .err _ tr => tr
  | .pending tr => tr

/-- The emissions performed after the loop breaks (irqwatch.go lines
112-118): the summary, gated on `verbose >= 1`. -/
def finishEmits (opts : IrqWatchOptions) (knit : KnitOptions)
    (initStats lastStats : Stats) : List TraceEv :=
  if 1 ≤ opts.verbose then [TraceEv.emitSummary knit.jsonOutput initStats lastStats] else []

/-- The `for { select { ... } }` loop of `watchIRQs` (irqwatch.go lines
84-110). `initStats` is the baseline, `prevStats` the rolling previous
snapshot, `lastStats` the (possibly still zero-valued) last read,
`iterCount` the Go iteration counter starting at 1. -/
def watchLoop (opts : IrqWatchOptions) (knit : KnitOptions) (initStats : Stats) :
    Stats → Stats → Int → List Ev → RunResult
  | _, _, _, [] => .pending []
  | _prevStats, lastStats, _iterCount, Ev.signal :: _rest =>
    -- done = true, then `if done { break }`: exit with the current lastStats
    .ok (finishEmits opts knit initStats lastStats)
  | prevStats, _lastStats, iterCount, Ev.tick read :: rest =>
    match read with
    | .error e => .err e [TraceEv.readStats]
    | .ok st =>
      let emits :=
        if 2 ≤ opts.verbose then [TraceEv.emitDelta knit.jsonOutput prevStats st] else []
      let pre := TraceEv.readStats :: emits
      if 0 < opts.maxRuns ∧ opts.maxRuns ≤ iterCount then
        .ok (pre ++ finishEmits opts knit initStats st)
      else
        prependTrace pre (watchLoop opts knit initStats st st (iterCount + 1) rest)

/-- `watchIRQs` from irqwatch.go: early return on `maxRuns == 0`, then
period parse, then baseline read, then the sampling loop. -/
def watchIRQs (opts : IrqWatchOptions) (knit : KnitOptions) (env : Env) : RunResult :=
  if opts.maxRuns = 0 then .ok []
  else
    match env.parsePeriod with
    | .error e => .err e []
    | .ok _period =>
      match env.initRead with
      | .error e => .err e []
      | .ok initStats =>
        prependTrace [TraceEv.readStats]
          (watchLoop opts knit initStats (Stats.Clone initStats) [] 1 env.events)

/-- Text rendering of a per-tick delta (irqwatch.go `dumpIrqDeltaText`):
one (cpu, irq, value) line per non-zero delta cell, in CPU-set order. -/
def dumpIrqDeltaText (prevStats lastStats : Stats) (cpus : List Nat) :
    List (Nat × String × Nat) :=
  let delta := Stats.Delta prevStats lastStats
  cpus.flatMap (fun cpuid =>
    match lookupCPU delta cpuid with
    | none => []
    | some counter =>
      counter.filterMap (fun p => if p.2 = 0 then none else some (cpuid, p.1, p.2)))

/-- Text rendering of the end-of-run summary (irqwatch.go
`dumpIrqSummaryText`): same per-line filtering as the per-tick text dump
(elapsed-time header omitted from the model). -/
def dumpIrqSummaryText (prevStats lastStats : Stats) (cpus : List Nat) :
    List (Nat × String × Nat) :=
  let delta := Stats.Delta prevStats lastStats
  cpus.flatMap (fun cpuid =>
    match lookupCPU delta cpuid with
    | none => []
    | some counter =>
      counter.filterMap (fun p => if p.2 = 0 then none else some (cpuid, p.1, p.2)))

/-- `countersForCPUs` from irqwatch.go: restrict a stats table to the
requested CPUs, dropping CPUs that are absent or have an empty counter
table. Zero-valued cells are NOT touched. -/
def countersForCPUs (cpus : List Nat) (stats : Stats) : Stats :=
  cpus.filterMap (fun cpuid =>
    match lookupCPU stats cpuid with
    | none => none
    | some counter => if counter.isEmpty then none else some (cpuid, counter))

/-- The `counters` field of the JSON per-tick delta record (irqwatch.go
`dumpIrqDeltaJSON`); the timestamp field is omitted from the model. -/
def dumpIrqDeltaJSON (prevStats lastStats : Stats) (cpus : List Nat) : Stats :=
  countersForCPUs cpus (Stats.Delta prevStats lastStats)

/-- The `counters` field of the JSON summary record (irqwatch.go
`dumpIrqSummaryJSON`); the elapsed field is omitted from the model. -/
def dumpIrqSummaryJSON (prevStats lastStats : Stats) (cpus : List Nat) : Stats :=
  countersForCPUs cpus (Stats.Delta prevStats lastStats)

/-- Number of `ReadStats` calls recorded in a trace. -/
def countRead (tr : List TraceEv) : Nat :=
  tr.countP (fun ev => match ev with | TraceEv.readStats => true | _ => false)

/-- Number of per-tick delta emissions recorded in a trace. -/
def countDelta (tr : List TraceEv) : Nat :=
  tr.countP (fun ev => match ev with | TraceEv.emitDelta _ _ _ => true | _ => false)

/-- Number of summary emissions recorded in a trace. -/
def countSummary (tr : List TraceEv) : Nat :=
  tr.countP (fun ev => match ev with | TraceEv.emitSummary _ _ _ => true | _ => false)

/-- A stats table whose every cell is non-zero. -/
def statsOnlyNonZero (s : Stats) : Prop :=
  ∀ p ∈ s, ∀ q ∈ p.2, q.2 ≠ 0

instance (s : Stats) : Decidable (statsOnlyNonZero s) := by
  unfold statsOnlyNonZero; infer_instance

/-- An all-successful tick event for read result `st`. -/
def tickOk (st : Stats) : Ev := Ev.tick (Except.ok st)

/-- The trace produced by a run of successful ticks with reads `reads`,
starting from rolling previous snapshot `prev` (no loop exit included). -/
def tickTrace (json : Bool) (verbose : Int) : Stats → List Stats → List TraceEv
  | _, [] => []
  | prev, st :: rest =>
    TraceEv.readStats ::
      ((if 2 ≤ verbose then [TraceEv.emitDelta json prev st] else []) ++
        tickTrace json verbose st rest)

/-! ### Basic facts about traces and run outcomes -/

lemma traceOf_prependTrace (pre : List TraceEv) (r : RunResult) :
    traceOf (prependTrace pre r) = pre ++ traceOf r := by
  cases r <;> rfl

lemma prependTrace_eq_ok {pre tr : List TraceEv} {r : RunResult} :
    prependTrace pre r = RunResult.ok tr ↔ ∃ t, r = RunResult.ok t ∧ tr = pre ++ t := by
  cases r <;> simp [prependTrace, eq_comm]

lemma prependTrace_eq_err {pre tr : List TraceEv} {e : Err} {r : RunResult} :
    prependTrace pre r = RunResult.err e tr ↔ ∃ t, r = RunResult.err e t ∧ tr = pre ++ t := by
  cases r with
  | ok t => simp [prependTrace]
  | pending t => simp [prependTrace]
  | err e' t =>
    simp only [prependTrace, RunResult.err.injEq]
    constructor
    · rintro ⟨he, htr⟩
      exact ⟨t, ⟨he, rfl⟩, htr.symm⟩
    · rintro ⟨t', ⟨he, ht⟩, htr⟩
      subst ht
      exact ⟨he, htr.symm⟩

lemma countRead_append (a b : List TraceEv) :
    countRead (a ++ b) = countRead a + countRead b :=
  List.countP_append _ a b

lemma countDelta_append (a b : List TraceEv) :
    countDelta (a ++ b) = countDelta a + countDelta b :=
  List.countP_append _ a b

lemma countSummary_append (a b : List TraceEv) :
    countSummary (a ++ b) = countSummary a + countSummary b :=
  List.countP_append _ a b

lemma countSummary_finishEmits (opts : IrqWatchOptions) (knit : KnitOptions)
    (i l : Stats) :
    countSummary (finishEmits opts knit i l) = if 1 ≤ opts.verbose then 1 else 0 := by
  unfold finishEmits
  split <;> simp [countSummary, List.countP_cons, List.countP_nil]

lemma countRead_finishEmits (opts : IrqWatchOptions) (knit : KnitOptions)
    (i l : Stats) : countRead (finishEmits opts knit i l) = 0 := by
  unfold finishEmits
  split <;> simp [countRead, List.countP_cons, List.countP_nil]

lemma countDelta_finishEmits (opts : IrqWatchOptions) (knit : KnitOptions)
    (i l : Stats) : countDelta (finishEmits opts knit i l) = 0 := by
  unfold finishEmits
  split <;> simp [countDelta, List.countP_cons, List.countP_nil]

lemma countRead_tickTrace (json : Bool) (v : Int) (reads : List Stats) :
    ∀ prev, countRead (tickTrace json v prev reads) = reads.length := by
  induction reads with
  | nil => intro prev; rfl
  | cons st rest ih =>
    intro prev
    unfold tickTrace
    simp only [countRead, List.countP_cons, List.countP_append] at ih ⊢
    rw [ih st]
    by_cases h2 : (2 : Int) ≤ v <;>
      simp [h2, List.countP_cons, List.countP_nil]

lemma countSummary_tickTrace (json : Bool) (v : Int) (reads : List Stats) :
    ∀ prev, countSummary (tickTrace json v prev reads) = 0 := by
  induction reads with
  | nil => intro prev; rfl
  | cons st rest ih =>
    intro prev
    unfold tickTrace
    simp only [countSummary, List.countP_cons, List.countP_append] at ih ⊢
    rw [ih st]
    by_cases h2 : (2 : Int) ≤ v <;>
      simp [h2, List.countP_cons, List.countP_nil]

lemma countDelta_tickTrace (json : Bool) (v : Int) (reads : List Stats) :
    ∀ prev, countDelta (tickTrace json v prev reads) =
      if 2 ≤ v then reads.length else 0 := by
  induction reads with
  | nil => intro prev; simp [tickTrace, countDelta, List.countP_nil]
  | cons st rest ih =>
    intro prev
    unfold tickTrace
    simp only [countDelta, List.countP_cons, List.countP_append] at ih ⊢
    rw [ih st]
    by_cases h2 : (2 : Int) ≤ v <;>
      simp [h2, List.countP_cons, List.countP_nil, Nat.add_comm]

/-! ### Unfolding equations for the sampling loop -/

lemma watchLoop_nil (opts : IrqWatchOptions) (knit : KnitOptions)
    (s0 prev lst : Stats) (iter : Int) :
    watchLoop opts knit s0 prev lst iter [] = RunResult.pending [] := rfl

lemma watchLoop_sig (opts : IrqWatchOptions) (knit : KnitOptions)
    (s0 prev lst : Stats) (iter : Int) (rest : List Ev) :
    watchLoop opts knit s0 prev lst iter (Ev.signal :: rest) =
      RunResult.ok (finishEmits opts knit s0 lst) := rfl

lemma watchLoop_tick_error (opts : IrqWatchOptions) (knit : KnitOptions)
    (s0 prev lst : Stats) (iter : Int) (e : Err) (rest : List Ev) :
    watchLoop opts knit s0 prev lst iter (Ev.tick (Except.error e) :: rest) =
      RunResult.err e [TraceEv.readStats] := rfl

lemma watchLoop_tick_ok (opts : IrqWatchOptions) (knit : KnitOptions)
    (s0 prev lst : Stats) (iter : Int) (st : Stats) (rest : List Ev) :
    watchLoop opts knit s0 prev lst iter (Ev.tick (Except.ok st) :: rest) =
      (if 0 < opts.maxRuns ∧ opts.maxRuns ≤ iter then
        RunResult.ok
          ((TraceEv.readStats ::
            (if 2 ≤ opts.verbose then [TraceEv.emitDelta knit.jsonOutput prev st] else [])) ++
           finishEmits opts knit s0 st)
      else
        prependTrace
          (TraceEv.readStats ::
            (if 2 ≤ opts.verbose then [TraceEv.emitDelta knit.jsonOutput prev st] else []))
          (watchLoop opts knit s0 st st (iter + 1) rest)) := rfl

/-! ### Master lemmas on runs of successful ticks -/

lemma watchLoop_ticks_sig (opts : IrqWatchOptions) (knit : KnitOptions) (s0 : Stats)
    (reads : List Stats) :
    ∀ (prev lst : Stats) (iter : Int) (rest : List Ev),
      (0 < opts.maxRuns → (reads.length : Int) + iter ≤ opts.maxRuns) →
      watchLoop opts knit s0 prev lst iter (reads.map tickOk ++ Ev.signal :: rest) =
        RunResult.ok (tickTrace knit.jsonOutput opts.verbose prev reads ++
          finishEmits opts knit s0 (reads.getLastD lst)) := by
  induction reads with
  | nil =>
    intro prev lst iter rest _
    simp [tickOk, watchLoop_sig, tickTrace, List.getLastD]
  | cons st rs ih =>
    intro prev lst iter rest hbound
    simp only [List.length_cons] at hbound
    simp only [List.map_cons, List.cons_append, tickOk, watchLoop_tick_ok]
    have hcond : ¬ (0 < opts.maxRuns ∧ opts.maxRuns ≤ iter) := by
      rintro ⟨hpos, hle⟩
      have hgap := hbound hpos
      push_cast at hgap
      omega
    have hb2 : 0 < opts.maxRuns → (rs.length : Int) + (iter + 1) ≤ opts.maxRuns := by
      intro hpos
      have hgap := hbound hpos
      push_cast at hgap ⊢
      omega
    rw [if_neg hcond]
    rw [ih st st (iter + 1) rest hb2]
    rw [List.getLastD_cons]
    simp [prependTrace, tickTrace, List.append_assoc]

lemma watchLoop_ticks_pending (opts : IrqWatchOptions) (knit : KnitOptions) (s0 : Stats)
    (hmax : ¬ 0 < opts.maxRuns) (reads : List Stats) :
    ∀ (prev lst : Stats) (iter : Int),
      watchLoop opts knit s0 prev lst iter (reads.map tickOk) =
        RunResult.pending (tickTrace knit.jsonOutput opts.verbose prev reads) := by
  induction reads with
  | nil => intro prev lst iter; rfl
  | cons st rs ih =>
    intro prev lst iter
    simp only [List.map_cons, tickOk, watchLoop_tick_ok]
    rw [if_neg (fun h => hmax h.1)]
    rw [ih st st (iter + 1)]
    simp [prependTrace, tickTrace, List.append_assoc]

lemma watchLoop_ticks_error (opts : IrqWatchOptions) (knit : KnitOptions) (s0 : Stats)
    (reads : List Stats) (e : Err) (more : List Ev) :
    ∀ (prev lst : Stats) (iter : Int),
      (0 < opts.maxRuns → (reads.length : Int) + iter ≤ opts.maxRuns) →
      watchLoop opts knit s0 prev lst iter
          (reads.map tickOk ++ Ev.tick (Except.error e) :: more) =
        RunResult.err e (tickTrace knit.jsonOutput opts.verbose prev reads ++
          [TraceEv.readStats]) := by
  induction reads with
  | nil =>
    intro prev lst iter _
    simp [tickOk, watchLoop_tick_error, tickTrace]
  | cons st rs ih =>
    intro prev lst iter hbound
    simp only [List.length_cons] at hbound
    simp only [List.map_cons, List.cons_append, tickOk, watchLoop_tick_ok]
    have hcond : ¬ (0 < opts.maxRuns ∧ opts.maxRuns ≤ iter) := by
      rintro ⟨hpos, hle⟩
      have hgap := hbound hpos
      push_cast at hgap
      omega
    have hb2 : 0 < opts.maxRuns → (rs.length : Int) + (iter + 1) ≤ opts.maxRuns := by
      intro hpos
      have hgap := hbound hpos
      push_cast at hgap ⊢
      omega
    rw [if_neg hcond]
    rw [ih st st (iter + 1) hb2]
    simp [prependTrace, tickTrace, List.append_assoc]

lemma watchLoop_ticks_maxRuns (opts : IrqWatchOptions) (knit : KnitOptions) (s0 : Stats)
    (hmax : 0 < opts.maxRuns) (reads : List Stats) :
    ∀ (prev lst : Stats) (iter : Int) (extra : List Ev),
      reads ≠ [] →
      (reads.length : Int) + iter = opts.maxRuns + 1 →
      watchLoop opts knit s0 prev lst iter (reads.map tickOk ++ extra) =
        RunResult.ok (tickTrace knit.jsonOutput opts.verbose prev reads ++
          finishEmits opts knit s0 (reads.getLastD lst)) := by
  induction reads with
  | nil =>
    intro prev lst iter extra hne _
    exact absurd rfl hne
  | cons st rs ih =>
    intro prev lst iter extra _ hlen
    simp only [List.length_cons] at hlen
    push_cast at hlen
    simp only [List.map_cons, List.cons_append, tickOk, watchLoop_tick_ok]
    by_cases hrs : rs = []
    · subst hrs
      simp only [List.length_nil] at hlen
      rw [if_pos ⟨hmax, by omega⟩]
      simp [tickTrace, List.getLastD]
    · have hlen1 : 1 ≤ (rs.length : Int) := by
        cases rs with
        | nil => exact absurd rfl hrs
        | cons a l => simp only [List.length_cons]; push_cast; omega
      have hcond : ¬ (0 < opts.maxRuns ∧ opts.maxRuns ≤ iter) := by
        rintro ⟨-, hle⟩
        omega
      rw [if_neg hcond]
      have hlen2 : (rs.length : Int) + (iter + 1) = opts.maxRuns + 1 := by omega
      rw [ih st st (iter + 1) extra hrs hlen2]
      rw [List.getLastD_cons]
      simp [prependTrace, tickTrace, List.append_assoc]

/-! ### Invariants of arbitrary loop runs -/

lemma countSummary_pre (json : Bool) (v : Int) (prev st : Stats) :
    countSummary (TraceEv.readStats ::
      (if 2 ≤ v then [TraceEv.emitDelta json prev st] else [])) = 0 := by
  by_cases h2 : (2 : Int) ≤ v <;>
    simp [h2, countSummary, List.countP_cons, List.countP_nil]

lemma countRead_pre (json : Bool) (v : Int) (prev st : Stats) :
    countRead (TraceEv.readStats ::
      (if 2 ≤ v then [TraceEv.emitDelta json prev st] else [])) = 1 := by
  by_cases h2 : (2 : Int) ≤ v <;>
    simp [h2, countRead, List.countP_cons, List.countP_nil]

lemma countDelta_pre (json : Bool) (v : Int) (prev st : Stats) :
    countDelta (TraceEv.readStats ::
      (if 2 ≤ v then [TraceEv.emitDelta json prev st] else [])) =
      if 2 ≤ v then 1 else 0 := by
  by_cases h2 : (2 : Int) ≤ v <;>
    simp [h2, countDelta, List.countP_cons, List.countP_nil]

lemma watchLoop_err_no_summary (opts : IrqWatchOptions) (knit : KnitOptions) (s0 : Stats) :
    ∀ (events : List Ev) (prev lst : Stats) (iter : Int) (e : Err) (tr : List TraceEv),
      watchLoop opts knit s0 prev lst iter events = RunResult.err e tr →
      countSummary tr = 0 := by
  intro events
  induction events with
  | nil =>
    intro prev lst iter e tr h
    rw [watchLoop_nil] at h
    exact absurd h (by simp)
  | cons ev rest ih =>
    intro prev lst iter e tr h
    cases ev with
    | signal =>
      rw [watchLoop_sig] at h
      exact absurd h (by simp)
    | tick read =>
      cases read with
      | error e' =>
        rw [watchLoop_tick_error] at h
        injection h with h1 h2
        subst h2
        rfl
      | ok st =>
        rw [watchLoop_tick_ok] at h
        split at h
        · exact absurd h (by simp)
        · rw [prependTrace_eq_err] at h
          obtain ⟨t, hrec, htr⟩ := h
          subst htr
          rw [countSummary_append, countSummary_pre, ih st st (iter + 1) e t hrec]

lemma watchLoop_ok_counts (opts : IrqWatchOptions) (knit : KnitOptions) (s0 : Stats) :
    ∀ (events : List Ev) (prev lst : Stats) (iter : Int) (tr : List TraceEv),
      watchLoop opts knit s0 prev lst iter events = RunResult.ok tr →
      countSummary tr = (if 1 ≤ opts.verbose then 1 else 0) ∧
      countDelta tr = (if 2 ≤ opts.verbose then countRead tr else 0) := by
  intro events
  induction events with
  | nil =>
    intro prev lst iter tr h
    rw [watchLoop_nil] at h
    exact absurd h (by simp)
  | cons ev rest ih =>
    intro prev lst iter tr h
    cases ev with
    | signal =>
      rw [watchLoop_sig] at h
      injection h with h1
      subst h1
      refine ⟨countSummary_finishEmits opts knit s0 lst, ?_⟩
      rw [countDelta_finishEmits, countRead_finishEmits]
      simp
    | tick read =>
      cases read with
      | error e' =>
        rw [watchLoop_tick_error] at h
        exact absurd h (by simp)
      | ok st =>
        rw [watchLoop_tick_ok] at h
        split at h
        · injection h with h1
          subst h1
          constructor
          · rw [countSummary_append, countSummary_pre, countSummary_finishEmits,
              Nat.zero_add]
          · rw [countDelta_append, countDelta_pre, countDelta_finishEmits,
              countRead_append, countRead_pre, countRead_finishEmits]
            by_cases h2 : (2 : Int) ≤ opts.verbose <;> simp [h2]
        · rw [prependTrace_eq_ok] at h
          obtain ⟨t, hrec, htr⟩ := h
          subst htr
          obtain ⟨hs, hd⟩ := ih st st (iter + 1) t hrec
          constructor
          · rw [countSummary_append, countSummary_pre, hs, Nat.zero_add]
          · rw [countDelta_append, countDelta_pre, countRead_append, countRead_pre, hd]
            by_cases h2 : (2 : Int) ≤ opts.verbose <;> simp [h2]

lemma watchLoop_summary_baseline (opts : IrqWatchOptions) (knit : KnitOptions) (s0 : Stats) :
    ∀ (events : List Ev) (prev lst : Stats) (iter : Int) (j : Bool) (i l : Stats),
      TraceEv.emitSummary j i l ∈
          traceOf (watchLoop opts knit s0 prev lst iter events) →
      i = s0 := by
  intro events
  induction events with
  | nil =>
    intro prev lst iter j i l hmem
    rw [watchLoop_nil] at hmem
    simp [traceOf] at hmem
  | cons ev rest ih =>
    intro prev lst iter j i l hmem
    cases ev with
    | signal =>
      rw [watchLoop_sig] at hmem
      simp only [traceOf] at hmem
      unfold finishEmits at hmem
      revert hmem
      split <;> intro hmem <;> simp_all [TraceEv.emitSummary.injEq]
    | tick read =>
      cases read with
      | error e' =>
        rw [watchLoop_tick_error] at hmem
        simp [traceOf] at hmem
      | ok st =>
        rw [watchLoop_tick_ok] at hmem
        revert hmem
        split <;> intro hmem
        · simp only [traceOf] at hmem
          rcases List.mem_append.1 hmem with hin | hin
          · rcases List.mem_cons.1 hin with h | h
            · exact absurd h (by simp)
            · revert h
              split <;> intro h <;> simp_all
          · unfold finishEmits at hin
            revert hin
            split <;> intro hin <;> simp_all [TraceEv.emitSummary.injEq]
        · rw [traceOf_prependTrace] at hmem
          rcases List.mem_append.1 hmem with hin | hin
          · rcases List.mem_cons.1 hin with h | h
            · exact absurd h (by simp)
            · revert h
              split <;> intro h <;> simp_all
          · exact ih st st (iter + 1) j i l hin

/-! ### Delta engine lemmas -/

lemma lookupCPU_Delta (a : Stats) (cpu : Nat) :
    ∀ b : Stats, lookupCPU (Stats.Delta a b) cpu =
      (lookupCPU b cpu).map (deltaCounter a cpu) := by
  intro b
  induction b with
  | nil => rfl
  | cons p rs ih =>
    obtain ⟨c, tbl⟩ := p
    simp only [Stats.Delta, List.map_cons] at ih ⊢
    by_cases hc : c = cpu
    · subst hc
      simp [lookupCPU]
    · simp only [lookupCPU, hc, if_false, ite_false]
      exact ih

lemma lookupIrq_deltaCounter (a : Stats) (cpu : Nat) (irq : String) (va : Nat)
    (ha : statsLookup a cpu irq = some va) :
    ∀ (cl : Counter) (vl : Nat), lookupIrq cl irq = some vl →
      lookupIrq (deltaCounter a cpu cl) irq = some (deltaVal va vl) := by
  intro cl
  induction cl with
  | nil =>
    intro vl h
    simp [lookupIrq] at h
  | cons q rest ih =>
    obtain ⟨n, v⟩ := q
    intro vl h
    simp only [lookupIrq] at h
    by_cases hn : n = irq
    · subst hn
      rw [if_pos rfl] at h
      injection h with hv
      subst hv
      simp [deltaCounter, List.filterMap_cons, ha, lookupIrq]
    · rw [if_neg hn] at h
      simp only [deltaCounter, List.filterMap_cons]
      cases hsl : statsLookup a cpu n with
      | none =>
        simp only [hsl]
        exact ih vl h
      | some ve =>
        simp only [hsl, lookupIrq, hn, if_false, ite_false]
        exact ih vl h

lemma statsLookup_Delta (a b : Stats) (cpu : Nat) (irq : String) (va vb : Nat)
    (ha : statsLookup a cpu irq = some va) (hb : statsLookup b cpu irq = some vb) :
    statsLookup (Stats.Delta a b) cpu irq = some (deltaVal va vb) := by
  unfold statsLookup at hb ⊢
  cases hcb : lookupCPU b cpu with
  | none =>
    rw [hcb] at hb
    simp at hb
  | some cb =>
    rw [hcb] at hb
    simp only [Option.some_bind] at hb
    rw [lookupCPU_Delta a cpu b, hcb]
    simp only [Option.map_some', Option.some_bind]
    exact lookupIrq_deltaCounter a cpu irq va ha cb vb hb

/-! ### Unfolding lemmas for watchIRQs -/

lemma watchIRQs_maxzero (opts : IrqWatchOptions) (knit : KnitOptions) (env : Env)
    (h : opts.maxRuns = 0) : watchIRQs opts knit env = RunResult.ok [] := by
  unfold watchIRQs
  rw [if_pos h]

lemma watchIRQs_parse_error (opts : IrqWatchOptions) (knit : KnitOptions) (env : Env)
    (e : Err) (hmax : opts.maxRuns ≠ 0) (hp : env.parsePeriod = Except.error e) :
    watchIRQs opts knit env = RunResult.err e [] := by
  unfold watchIRQs
  rw [if_neg hmax, hp]

lemma watchIRQs_init_error (opts : IrqWatchOptions) (knit : KnitOptions) (env : Env)
    (e : Err) (d : Nat) (hmax : opts.maxRuns ≠ 0)
    (hp : env.parsePeriod = Except.ok d) (hi : env.initRead = Except.error e) :
    watchIRQs opts knit env = RunResult.err e [] := by
  unfold watchIRQs
  rw [if_neg hmax, hp, hi]

lemma watchIRQs_run (opts : IrqWatchOptions) (knit : KnitOptions) (env : Env)
    (s0 : Stats) (d : Nat) (hmax : opts.maxRuns ≠ 0)
    (hp : env.parsePeriod = Except.ok d) (hi : env.initRead = Except.ok s0) :
    watchIRQs opts knit env =
      prependTrace [TraceEv.readStats] (watchLoop opts knit s0 s0 [] 1 env.events) := by
  unfold watchIRQs
  rw [if_neg hmax, hp, hi]
  rfl

/-! ### Presentation-layer lemmas -/

lemma dumpIrqDeltaText_nonzero (prevStats lastStats : Stats) (cpus : List Nat) :
    ∀ e ∈ dumpIrqDeltaText prevStats lastStats cpus, e.2.2 ≠ 0 := by
  intro e he
  simp only [dumpIrqDeltaText] at he
  rw [List.mem_flatMap] at he
  obtain ⟨cpuid, _, he⟩ := he
  cases hl : lookupCPU (Stats.Delta prevStats lastStats) cpuid with
  | none =>
    rw [hl] at he
    simp at he
  | some counter =>
    rw [hl] at he
    simp only at he
    rw [List.mem_filterMap] at he
    obtain ⟨q, _, hq⟩ := he
    by_cases h0 : q.2 = 0
    · rw [if_pos h0] at hq
      cases hq
    · rw [if_neg h0] at hq
      injection hq with hq
      subst hq
      exact h0

lemma countersForCPUs_mem (cpus : List Nat) (stats : Stats) :
    ∀ p ∈ countersForCPUs cpus stats, p.1 ∈ cpus ∧ p.2 ≠ [] := by
  intro p hp
  unfold countersForCPUs at hp
  rw [List.mem_filterMap] at hp
  obtain ⟨cpuid, hcpu, hq⟩ := hp
  cases hl : lookupCPU stats cpuid with
  | none =>
    rw [hl] at hq
    cases hq
  | some counter =>
    rw [hl] at hq
    simp only at hq
    by_cases hemp : counter.isEmpty = true
    · rw [if_pos hemp] at hq
      cases hq
    · rw [if_neg hemp] at hq
      injection hq with hq
      subst hq
      refine ⟨hcpu, ?_⟩
      intro hc
      simp only at hc
      rw [hc] at hemp
      exact hemp rfl

/-! ### Concrete fixtures for counterexamples and witnesses -/

/-- A small nonempty baseline snapshot: CPU 0, IRQ line "16", count 5. -/
def sampleStats : Stats := [(0, [("16", 5)])]

/-- A later snapshot of the same shape with a strictly larger counter. -/
def sampleStats2 : Stats := [(0, [("16", 12)])]

/-! ### Claim C1 -/

/-- Claim C1, counterexample: with `maxRuns = 0` and verbosity 1, `watchIRQs`
returns success with an empty trace — zero ticks indeed, but NO summary is
emitted at all (the function returns at irqwatch.go line 56 before reading
the baseline), contradicting "still emits a summary". -/
theorem c1_counterexample :
    watchIRQs ⟨"1s", 0, 1⟩ ⟨false, [0]⟩ ⟨Except.ok 1, Except.ok sampleStats, [Ev.signal]⟩ =
      RunResult.ok [] ∧
    countSummary (traceOf (watchIRQs ⟨"1s", 0, 1⟩ ⟨false, [0]⟩
      ⟨Except.ok 1, Except.ok sampleStats, [Ev.signal]⟩)) = 0 ∧
    countRead (traceOf (watchIRQs ⟨"1s", 0, 1⟩ ⟨false, [0]⟩
      ⟨Except.ok 1, Except.ok sampleStats, [Ev.signal]⟩)) = 0 := by
  exact ⟨by decide, by decide, by decide⟩

/-- Claim C1 (amended): for a run configured with maximum iteration count 0,
`watchIRQs` returns success immediately: it performs zero `ReadStats` calls
(not even the baseline) and emits nothing — no per-tick records and no
summary record of any kind. -/
theorem c1_maxruns_zero_noop (opts : IrqWatchOptions) (knit : KnitOptions) (env : Env)
    (h : opts.maxRuns = 0) : watchIRQs opts knit env = RunResult.ok [] :=
  watchIRQs_maxzero opts knit env h

/-- Claim C1 witness: the amended theorem applied at a concrete input. -/
theorem c1_maxruns_zero_noop_witness :
    (⟨"2s", 0, 2⟩ : IrqWatchOptions).maxRuns = 0 ∧
    watchIRQs ⟨"2s", 0, 2⟩ ⟨true, [0, 1]⟩ ⟨Except.ok 1, Except.ok sampleStats, []⟩ =
      RunResult.ok [] :=
  ⟨rfl, c1_maxruns_zero_noop ⟨"2s", 0, 2⟩ ⟨true, [0, 1]⟩
    ⟨Except.ok 1, Except.ok sampleStats, []⟩ rfl⟩

/-! ### Claim C2 -/

/-- Snapshot fixture for the C2 counterexample. -/
def c2Stats : Stats := [(0, [("16", 7)])]

/-- Claim C2, counterexample: when the interrupt signal arrives before any
tick, the emitted summary's later endpoint is the zero-value empty snapshot,
NOT the baseline — the run does use the "uninitialized" `lastStats`,
contradicting "uses the baseline snapshot as both endpoints ... never uses
an uninitialized last snapshot". -/
theorem c2_counterexample :
    watchIRQs ⟨"1s", -1, 1⟩ ⟨true, [0]⟩ ⟨Except.ok 1, Except.ok c2Stats, [Ev.signal]⟩ =
      RunResult.ok [TraceEv.readStats, TraceEv.emitSummary true c2Stats []] ∧
    ([] : Stats) ≠ c2Stats := by
  exact ⟨by decide, by decide⟩

/-- Claim C2 (amended): if the loop terminates before any tick executes, the
summary is still emitted (at verbosity ≥ 1) with the baseline as the earlier
endpoint and the zero-value empty snapshot — Go's `var lastStats irqs.Stats`
nil map — as the later endpoint; the delta of that pair is empty, hence a
zero delta. -/
theorem c2_zero_tick_summary (opts : IrqWatchOptions) (knit : KnitOptions) (env : Env)
    (s0 : Stats) (d : Nat) (rest : List Ev)
    (hmax : opts.maxRuns ≠ 0) (hp : env.parsePeriod = Except.ok d)
    (hi : env.initRead = Except.ok s0) (hev : env.events = Ev.signal :: rest)
    (hv : 1 ≤ opts.verbose) :
    watchIRQs opts knit env =
      RunResult.ok [TraceEv.readStats, TraceEv.emitSummary knit.jsonOutput s0 []] ∧
    Stats.Delta s0 [] = [] := by
  refine ⟨?_, rfl⟩
  rw [watchIRQs_run opts knit env s0 d hmax hp hi, hev, watchLoop_sig]
  unfold finishEmits
  rw [if_pos hv]
  rfl

/-- Claim C2 witness: the amended theorem applied at a concrete input. -/
theorem c2_zero_tick_summary_witness :
    ((-1 : Int) ≠ 0 ∧ (1 : Int) ≤ 1) ∧
    watchIRQs ⟨"1s", -1, 1⟩ ⟨false, [0]⟩ ⟨Except.ok 1, Except.ok sampleStats, [Ev.signal]⟩ =
      RunResult.ok [TraceEv.readStats, TraceEv.emitSummary false sampleStats []] :=
  ⟨⟨by decide, by decide⟩,
    (c2_zero_tick_summary ⟨"1s", -1, 1⟩ ⟨false, [0]⟩
      ⟨Except.ok 1, Except.ok sampleStats, [Ev.signal]⟩ sampleStats 1 []
      (by decide) rfl rfl rfl (by decide)).1⟩

/-! ### Claim C3 -/

/-- Snapshot fixture for the C3 counterexample. -/
def c3Stats : Stats := [(0, [("16", 10)])]

/-- Claim C3, counterexample: the JSON rendering path (`countersForCPUs`)
does NOT filter zero-valued cells — for two equal snapshots the per-tick
JSON record contains the zero-valued cell `("16", 0)`, contradicting
"entries whose delta value is zero are filtered out ... in both the text
and the JSON output paths". -/
theorem c3_counterexample :
    dumpIrqDeltaJSON c3Stats c3Stats [0] = [(0, [("16", 0)])] ∧
    ¬ statsOnlyNonZero (dumpIrqDeltaJSON c3Stats c3Stats [0]) := by
  exact ⟨by decide, by decide⟩

/-- Claim C3 (amended): the TEXT paths emit only non-zero cells, while the
JSON paths only restrict to the requested CPU set and drop CPUs with an
empty delta counter table — zero-valued cells are retained in JSON
records. -/
theorem c3_presentation_filtering (prevStats lastStats : Stats) (cpus : List Nat) :
    (∀ e ∈ dumpIrqDeltaText prevStats lastStats cpus, e.2.2 ≠ 0) ∧
    (∀ e ∈ dumpIrqSummaryText prevStats lastStats cpus, e.2.2 ≠ 0) ∧
    (∀ p ∈ dumpIrqDeltaJSON prevStats lastStats cpus, p.1 ∈ cpus ∧ p.2 ≠ []) ∧
    (∀ p ∈ dumpIrqSummaryJSON prevStats lastStats cpus, p.1 ∈ cpus ∧ p.2 ≠ []) := by
  refine ⟨dumpIrqDeltaText_nonzero prevStats lastStats cpus, ?_, ?_, ?_⟩
  · have h : dumpIrqSummaryText prevStats lastStats cpus =
        dumpIrqDeltaText prevStats lastStats cpus := rfl
    rw [h]
    exact dumpIrqDeltaText_nonzero prevStats lastStats cpus
  · exact countersForCPUs_mem cpus (Stats.Delta prevStats lastStats)
  · exact countersForCPUs_mem cpus (Stats.Delta prevStats lastStats)

/-- Claim C3 witness: the amended theorem applied at a concrete input. -/
theorem c3_presentation_filtering_witness :
    ((0, "16", 7) ∈ dumpIrqDeltaText sampleStats sampleStats2 [0]) ∧
    ((0, "16", 7) : Nat × String × Nat).2.2 ≠ 0 := by
  refine ⟨by decide, ?_⟩
  exact (c3_presentation_filtering sampleStats sampleStats2 [0]).1 (0, "16", 7) (by decide)

/-! ### Claim C4 -/

/-- Claim C4, counterexample: with `maxRuns = 0`, `watchIRQs` returns
SUCCESS even though the sampling-period string is invalid (the parse result
is an error) — the period is never parsed, contradicting "for every
configuration with an invalid sampling-period string, watchIRQs fails". -/
theorem c4_counterexample :
    watchIRQs ⟨"bogus", 0, 1⟩ ⟨false, [0]⟩
      ⟨Except.error "time: invalid duration bogus", Except.ok sampleStats, []⟩ =
      RunResult.ok [] := by
  decide

/-- Claim C4 (amended): for every configuration with `maxRuns ≠ 0` and an
invalid sampling-period string, `watchIRQs` propagates the parse error and
the loop does not start: the trace is empty — no baseline read, no ticks,
no summary. -/
theorem c4_invalid_period_fails (opts : IrqWatchOptions) (knit : KnitOptions) (env : Env)
    (e : Err) (hmax : opts.maxRuns ≠ 0) (hp : env.parsePeriod = Except.error e) :
    watchIRQs opts knit env = RunResult.err e [] :=
  watchIRQs_parse_error opts knit env e hmax hp

/-- Claim C4 witness: the amended theorem applied at a concrete input. -/
theorem c4_invalid_period_fails_witness :
    ((-1 : Int) ≠ 0) ∧
    watchIRQs ⟨"junk", -1, 1⟩ ⟨false, [0]⟩
      ⟨Except.error "time: invalid duration junk", Except.ok sampleStats, []⟩ =
      RunResult.err "time: invalid duration junk" [] :=
  ⟨by decide,
    c4_invalid_period_fails ⟨"junk", -1, 1⟩ ⟨false, [0]⟩
      ⟨Except.error "time: invalid duration junk", Except.ok sampleStats, []⟩
      "time: invalid duration junk" (by decide) rfl⟩

/-! ### Claim C5 -/

/-- Claim C5: on any run that returns an error, the trace contains no
summary record (only what was already flushed per-tick); and on a run of
successful ticks followed by a failing `ReadStats`, `watchIRQs` aborts at
that tick with that error — later events are never consumed (no retry).
The abort clause covers unbounded runs and bounded runs alike: the only
side condition, `reads.length < maxRuns` when `0 < maxRuns`, merely
excludes event lists whose failing tick lies beyond the iteration bound,
where the loop has already exited successfully and no mid-run failure
occurs. -/
theorem c5_midrun_read_failure :
    (∀ (opts : IrqWatchOptions) (knit : KnitOptions) (env : Env) (e : Err)
        (tr : List TraceEv),
        watchIRQs opts knit env = RunResult.err e tr → countSummary tr = 0) ∧
    (∀ (opts : IrqWatchOptions) (knit : KnitOptions) (env : Env) (s0 : Stats) (d : Nat)
        (reads : List Stats) (e : Err) (more : List Ev),
        opts.maxRuns ≠ 0 →
        (0 < opts.maxRuns → (reads.length : Int) < opts.maxRuns) →
        env.parsePeriod = Except.ok d → env.initRead = Except.ok s0 →
        env.events = reads.map tickOk ++ Ev.tick (Except.error e) :: more →
        watchIRQs opts knit env =
          RunResult.err e (TraceEv.readStats ::
            (tickTrace knit.jsonOutput opts.verbose s0 reads ++ [TraceEv.readStats]))) := by
  constructor
  · intro opts knit env e tr h
    by_cases hm : opts.maxRuns = 0
    · rw [watchIRQs_maxzero opts knit env hm] at h
      exact absurd h (by simp)
    · cases hp : env.parsePeriod with
      | error e' =>
        rw [watchIRQs_parse_error opts knit env e' hm hp] at h
        injection h with h1 h2
        subst h2
        rfl
      | ok d =>
        cases hi : env.initRead with
        | error e' =>
          rw [watchIRQs_init_error opts knit env e' d hm hp hi] at h
          injection h with h1 h2
          subst h2
          rfl
        | ok s0 =>
          rw [watchIRQs_run opts knit env s0 d hm hp hi] at h
          rw [prependTrace_eq_err] at h
          obtain ⟨t, hrec, htr⟩ := h
          subst htr
          rw [countSummary_append,
            watchLoop_err_no_summary opts knit s0 env.events s0 [] 1 e t hrec]
          rfl
  · intro opts knit env s0 d reads e more hm hbound hp hi hev
    have hb : 0 < opts.maxRuns → (reads.length : Int) + 1 ≤ opts.maxRuns := by
      intro hpos
      have hlt := hbound hpos
      omega
    rw [watchIRQs_run opts knit env s0 d hm hp hi, hev]
    rw [watchLoop_ticks_error opts knit s0 reads e more s0 [] 1 hb]
    rfl

/-- Claim C5 witness: the abort clause applied at a concrete BOUNDED run
(`maxRuns = 5`) whose second `ReadStats` fails well before the bound, and
the no-summary clause applied to the same run. -/
theorem c5_midrun_read_failure_witness :
    watchIRQs ⟨"1s", 5, 2⟩ ⟨false, [0]⟩
        ⟨Except.ok 1, Except.ok sampleStats,
          [tickOk sampleStats2, Ev.tick (Except.error "open /proc/interrupts: EIO")]⟩ =
      RunResult.err "open /proc/interrupts: EIO"
        [TraceEv.readStats, TraceEv.readStats,
          TraceEv.emitDelta false sampleStats sampleStats2, TraceEv.readStats] ∧
    countSummary [TraceEv.readStats, TraceEv.readStats,
      TraceEv.emitDelta false sampleStats sampleStats2, TraceEv.readStats] = 0 := by
  constructor
  · have h := c5_midrun_read_failure.2 ⟨"1s", 5, 2⟩ ⟨false, [0]⟩
      ⟨Except.ok 1, Except.ok sampleStats,
        [tickOk sampleStats2, Ev.tick (Except.error "open /proc/interrupts: EIO")]⟩
      sampleStats 1 [sampleStats2] "open /proc/interrupts: EIO" []
      (by decide) (by decide) rfl rfl rfl
    simpa using h
  · exact c5_midrun_read_failure.1 ⟨"1s", 5, 2⟩ ⟨false, [0]⟩
      ⟨Except.ok 1, Except.ok sampleStats,
        [tickOk sampleStats2, Ev.tick (Except.error "open /proc/interrupts: EIO")]⟩
      "open /proc/interrupts: EIO" _ (by decide)

/-! ### Claim C6 -/

/-- Snapshot fixture for the C6 counterexample. -/
def c6Stats : Stats := [(1, [("17", 4)])]

/-- Claim C6, counterexample: on an interrupt arriving before the first
tick, the one successfully read snapshot is the baseline, yet the summary
is computed against the zero-value empty snapshot, whose delta differs from
the delta against the last successfully read snapshot — contradicting "the
final summary is the delta computed between the very first baseline
snapshot and the last successfully read snapshot" on this exit. -/
theorem c6_counterexample :
    watchIRQs ⟨"1s", -1, 1⟩ ⟨false, [1]⟩ ⟨Except.ok 1, Except.ok c6Stats, [Ev.signal]⟩ =
      RunResult.ok [TraceEv.readStats, TraceEv.emitSummary false c6Stats []] ∧
    Stats.Delta c6Stats [] ≠ Stats.Delta c6Stats c6Stats := by
  exact ⟨by decide, by decide⟩

/-- Claim C6 (amended): on every loop exit — by interrupt signal (first
clause) or by reaching the iteration maximum (second clause) — the summary
delta endpoints are the very first baseline and the last snapshot read by a
tick; when no tick completed, the later endpoint is the zero-value empty
snapshot (`reads.getLastD []`), not the baseline. The signal clause covers
unbounded and bounded runs alike: its side condition,
`reads.length < maxRuns` when `0 < maxRuns`, only excludes event lists
whose signal lies beyond the iteration bound, where the loop has already
exited at the bound (the second clause's case) and the signal is never
observed. -/
theorem c6_summary_endpoints :
    (∀ (opts : IrqWatchOptions) (knit : KnitOptions) (env : Env) (s0 : Stats) (d : Nat)
        (reads : List Stats) (rest : List Ev),
        opts.maxRuns ≠ 0 →
        (0 < opts.maxRuns → (reads.length : Int) < opts.maxRuns) →
        env.parsePeriod = Except.ok d → env.initRead = Except.ok s0 →
        env.events = reads.map tickOk ++ Ev.signal :: rest →
        watchIRQs opts knit env =
          RunResult.ok (TraceEv.readStats ::
            (tickTrace knit.jsonOutput opts.verbose s0 reads ++
              finishEmits opts knit s0 (reads.getLastD [])))) ∧
    (∀ (opts : IrqWatchOptions) (knit : KnitOptions) (env : Env) (s0 : Stats) (d : Nat)
        (reads : List Stats) (extra : List Ev),
        0 < opts.maxRuns → (reads.length : Int) = opts.maxRuns →
        env.parsePeriod = Except.ok d → env.initRead = Except.ok s0 →
        env.events = reads.map tickOk ++ extra →
        watchIRQs opts knit env =
          RunResult.ok (TraceEv.readStats ::
            (tickTrace knit.jsonOutput opts.verbose s0 reads ++
              finishEmits opts knit s0 (reads.getLastD [])))) := by
  constructor
  · intro opts knit env s0 d reads rest hm hbound hp hi hev
    have hb : 0 < opts.maxRuns → (reads.length : Int) + 1 ≤ opts.maxRuns := by
      intro hpos
      have hlt := hbound hpos
      omega
    rw [watchIRQs_run opts knit env s0 d hm hp hi, hev]
    rw [watchLoop_ticks_sig opts knit s0 reads s0 [] 1 rest hb]
    rfl
  · intro opts knit env s0 d reads extra hpos hlen hp hi hev
    have hm : opts.maxRuns ≠ 0 := by omega
    have hne : reads ≠ [] := by
      intro hc
      rw [hc] at hlen
      simp at hlen
      omega
    rw [watchIRQs_run opts knit env s0 d hm hp hi, hev]
    rw [watchLoop_ticks_maxRuns opts knit s0 hpos reads s0 [] 1 extra hne (by omega)]
    rfl

/-- Claim C6 witness: the signal-exit clause applied to a concrete BOUNDED
run (`maxRuns = 5`) interrupted after one completed tick, well before the
bound — the summary endpoints are the baseline and the tick-read
snapshot. -/
theorem c6_summary_endpoints_witness :
    watchIRQs ⟨"1s", 5, 1⟩ ⟨false, [0]⟩
        ⟨Except.ok 1, Except.ok sampleStats, [tickOk sampleStats2, Ev.signal]⟩ =
      RunResult.ok [TraceEv.readStats, TraceEv.readStats,
        TraceEv.emitSummary false sampleStats sampleStats2] := by
  have h := c6_summary_endpoints.1 ⟨"1s", 5, 1⟩ ⟨false, [0]⟩
    ⟨Except.ok 1, Except.ok sampleStats, [tickOk sampleStats2, Ev.signal]⟩
    sampleStats 1 [sampleStats2] [] (by decide) (by decide) rfl rfl rfl
  simpa using h

/-! ### Claim C7 -/

/-- Claim C7: with `maxRuns = N > 0`, no signal and all reads successful,
the loop consumes exactly N ticks (N `ReadStats` calls after the baseline,
N + 1 in total) and terminates successfully, ignoring any later events;
with `maxRuns = -1` the loop never terminates on its own — after any finite
number of successful ticks it is still waiting. -/
theorem c7_iteration_bound :
    (∀ (opts : IrqWatchOptions) (knit : KnitOptions) (env : Env) (s0 : Stats) (d : Nat)
        (reads : List Stats) (extra : List Ev),
        0 < opts.maxRuns → (reads.length : Int) = opts.maxRuns →
        env.parsePeriod = Except.ok d → env.initRead = Except.ok s0 →
        env.events = reads.map tickOk ++ extra →
        watchIRQs opts knit env =
          RunResult.ok (TraceEv.readStats ::
            (tickTrace knit.jsonOutput opts.verbose s0 reads ++
              finishEmits opts knit s0 (reads.getLastD []))) ∧
        countRead (traceOf (watchIRQs opts knit env)) = reads.length + 1) ∧
    (∀ (opts : IrqWatchOptions) (knit : KnitOptions) (env : Env) (s0 : Stats) (d : Nat)
        (reads : List Stats),
        opts.maxRuns = -1 →
        env.parsePeriod = Except.ok d → env.initRead = Except.ok s0 →
        env.events = reads.map tickOk →
        watchIRQs opts knit env =
          RunResult.pending (TraceEv.readStats ::
            tickTrace knit.jsonOutput opts.verbose s0 reads)) := by
  constructor
  · intro opts knit env s0 d reads extra hpos hlen hp hi hev
    have hm : opts.maxRuns ≠ 0 := by omega
    have hne : reads ≠ [] := by
      intro hc
      rw [hc] at hlen
      simp at hlen
      omega
    have hrun : watchIRQs opts knit env =
        RunResult.ok (TraceEv.readStats ::
          (tickTrace knit.jsonOutput opts.verbose s0 reads ++
            finishEmits opts knit s0 (reads.getLastD []))) := by
      rw [watchIRQs_run opts knit env s0 d hm hp hi, hev]
      rw [watchLoop_ticks_maxRuns opts knit s0 hpos reads s0 [] 1 extra hne (by omega)]
      rfl
    refine ⟨hrun, ?_⟩
    rw [hrun]
    simp only [traceOf]
    have hsplit : TraceEv.readStats ::
        (tickTrace knit.jsonOutput opts.verbose s0 reads ++
          finishEmits opts knit s0 (reads.getLastD [])) =
        [TraceEv.readStats] ++
          (tickTrace knit.jsonOutput opts.verbose s0 reads ++
            finishEmits opts knit s0 (reads.getLastD [])) := rfl
    rw [hsplit, countRead_append, countRead_append,
      countRead_tickTrace knit.jsonOutput opts.verbose reads s0,
      countRead_finishEmits]
    have hone : countRead [TraceEv.readStats] = 1 := rfl
    omega
  · intro opts knit env s0 d reads hm1 hp hi hev
    have hm : opts.maxRuns ≠ 0 := by omega
    have hneg : ¬ 0 < opts.maxRuns := by omega
    rw [watchIRQs_run opts knit env s0 d hm hp hi, hev]
    rw [watchLoop_ticks_pending opts knit s0 hneg reads s0 [] 1]
    rfl

/-- Claim C7 witness: the bounded clause applied at a concrete two-tick
run with surplus events, yielding exactly three `ReadStats` calls. -/
theorem c7_iteration_bound_witness :
    (0 : Int) < 2 ∧
    countRead (traceOf (watchIRQs ⟨"1s", 2, 0⟩ ⟨false, [0]⟩
      ⟨Except.ok 1, Except.ok sampleStats,
        [tickOk sampleStats2, tickOk sampleStats2, Ev.signal]⟩)) = 3 := by
  refine ⟨by decide, ?_⟩
  have h := (c7_iteration_bound.1 ⟨"1s", 2, 0⟩ ⟨false, [0]⟩
    ⟨Except.ok 1, Except.ok sampleStats,
      [tickOk sampleStats2, tickOk sampleStats2, Ev.signal]⟩
    sampleStats 1 [sampleStats2, sampleStats2] [Ev.signal]
    (by decide) (by decide) rfl rfl rfl).2
  simpa using h

/-! ### Claim C8 -/

/-- Claim C8: for every pair of snapshots and every (cpu, irq) cell present
in both, if the counter decreases from the earlier to the later snapshot,
the delta reports exactly 0 for that cell — the negative raw difference is
clamped, never reported. -/
theorem c8_delta_clamps_decrease (a b : Stats) (cpu : Nat) (irq : String)
    (va vb : Nat) (ha : statsLookup a cpu irq = some va)
    (hb : statsLookup b cpu irq = some vb) (hdec : vb < va) :
    statsLookup (Stats.Delta a b) cpu irq = some 0 := by
  rw [statsLookup_Delta a b cpu irq va vb ha hb]
  unfold deltaVal
  rw [if_pos hdec]

/-- Claim C8 witness: the spec's own counter-reset example — earlier count
100, later count 3, delta clamped to 0. -/
theorem c8_delta_clamps_decrease_witness :
    statsLookup [(0, [("16", 100)])] 0 "16" = some 100 ∧
    statsLookup [(0, [("16", 3)])] 0 "16" = some 3 ∧
    3 < 100 ∧
    statsLookup (Stats.Delta [(0, [("16", 100)])] [(0, [("16", 3)])]) 0 "16" = some 0 :=
  ⟨by decide, by decide, by decide,
    c8_delta_clamps_decrease [(0, [("16", 100)])] [(0, [("16", 3)])] 0 "16" 100 3
      (by decide) (by decide) (by decide)⟩

/-! ### Claim C9 -/

/-- Claim C9: the baseline is never mutated during a run — `prevStats`
starts from a clone of `initStats` (a pure value copy), and whatever the
event sequence, any summary record in the run's trace carries the very
first read (the baseline) as its earlier endpoint. -/
theorem c9_baseline_immutable (opts : IrqWatchOptions) (knit : KnitOptions) (env : Env)
    (s0 : Stats) (j : Bool) (i l : Stats)
    (hi : env.initRead = Except.ok s0)
    (hmem : TraceEv.emitSummary j i l ∈ traceOf (watchIRQs opts knit env)) :
    Stats.Clone s0 = s0 ∧ i = s0 := by
  refine ⟨rfl, ?_⟩
  by_cases hm : opts.maxRuns = 0
  · rw [watchIRQs_maxzero opts knit env hm] at hmem
    simp [traceOf] at hmem
  · cases hp : env.parsePeriod with
    | error e =>
      rw [watchIRQs_parse_error opts knit env e hm hp] at hmem
      simp [traceOf] at hmem
    | ok d =>
      rw [watchIRQs_run opts knit env s0 d hm hp hi] at hmem
      rw [traceOf_prependTrace] at hmem
      rcases List.mem_append.1 hmem with hin | hin
      · simp at hin
      · exact watchLoop_summary_baseline opts knit s0 env.events s0 [] 1 j i l hin

/-- Claim C9 witness: the theorem applied at a concrete run whose trace
contains a summary record. -/
theorem c9_baseline_immutable_witness :
    (TraceEv.emitSummary false sampleStats [] ∈
      traceOf (watchIRQs ⟨"1s", -1, 1⟩ ⟨false, [0]⟩
        ⟨Except.ok 1, Except.ok sampleStats, [Ev.signal]⟩)) ∧
    (Stats.Clone sampleStats = sampleStats ∧ sampleStats = sampleStats) :=
  ⟨by decide,
    c9_baseline_immutable ⟨"1s", -1, 1⟩ ⟨false, [0]⟩
      ⟨Except.ok 1, Except.ok sampleStats, [Ev.signal]⟩
      sampleStats false sampleStats [] rfl (by decide)⟩

/-! ### Claim C10 -/

/-- Claim C10, counterexample: with `maxRuns = 0` and verbosity 3 (≥ 1) the
run emits no summary at all, contradicting "the end-of-run summary is
emitted if and only if verbosity is at least 1". -/
theorem c10_counterexample :
    (1 : Int) ≤ (⟨"1s", 0, 3⟩ : IrqWatchOptions).verbose ∧
    watchIRQs ⟨"1s", 0, 3⟩ ⟨false, [0]⟩ ⟨Except.ok 1, Except.ok sampleStats, [Ev.signal]⟩ =
      RunResult.ok [] ∧
    countSummary (traceOf (watchIRQs ⟨"1s", 0, 3⟩ ⟨false, [0]⟩
      ⟨Except.ok 1, Except.ok sampleStats, [Ev.signal]⟩)) = 0 := by
  exact ⟨by decide, by decide, by decide⟩

/-- Claim C10 (amended): for every run that enters the sampling loop
(`maxRuns ≠ 0`) and exits without error, the summary record is emitted
exactly once iff verbosity ≥ 1 (else not at all), and per-tick delta
records are emitted one per tick read iff verbosity ≥ 2 (else none);
`maxRuns = 0` runs emit nothing regardless of verbosity. -/
theorem c10_verbosity_gating (opts : IrqWatchOptions) (knit : KnitOptions) (env : Env)
    (tr : List TraceEv) (hm : opts.maxRuns ≠ 0)
    (h : watchIRQs opts knit env = RunResult.ok tr) :
    countSummary tr = (if 1 ≤ opts.verbose then 1 else 0) ∧
    countDelta tr = (if 2 ≤ opts.verbose then countRead tr - 1 else 0) := by
  cases hp : env.parsePeriod with
  | error e =>
    rw [watchIRQs_parse_error opts knit env e hm hp] at h
    exact absurd h (by simp)
  | ok d =>
    cases hi : env.initRead with
    | error e =>
      rw [watchIRQs_init_error opts knit env e d hm hp hi] at h
      exact absurd h (by simp)
    | ok s0 =>
      rw [watchIRQs_run opts knit env s0 d hm hp hi] at h
      rw [prependTrace_eq_ok] at h
      obtain ⟨t, hrec, htr⟩ := h
      subst htr
      obtain ⟨hs, hd⟩ := watchLoop_ok_counts opts knit s0 env.events s0 [] 1 t hrec
      constructor
      · rw [countSummary_append, hs]
        have h0 : countSummary [TraceEv.readStats] = 0 := rfl
        omega
      · rw [countDelta_append, countRead_append, hd]
        have h1 : countRead [TraceEv.readStats] = 1 := rfl
        have h2 : countDelta [TraceEv.readStats] = 0 := rfl
        by_cases hv : (2 : Int) ≤ opts.verbose <;> simp [hv, h1, h2]

/-- Claim C10 witness: the amended theorem applied at a concrete one-tick
run at verbosity 2 — one summary, one per-tick delta, two reads. -/
theorem c10_verbosity_gating_witness :
    ((-1 : Int) ≠ 0) ∧
    countSummary [TraceEv.readStats, TraceEv.readStats,
      TraceEv.emitDelta false sampleStats sampleStats2,
      TraceEv.emitSummary false sampleStats sampleStats2] = 1 ∧
    countDelta [TraceEv.readStats, TraceEv.readStats,
      TraceEv.emitDelta false sampleStats sampleStats2,
      TraceEv.emitSummary false sampleStats sampleStats2] = 1 := by
  refine ⟨by decide, ?_⟩
  have h := c10_verbosity_gating ⟨"1s", -1, 2⟩ ⟨false, [0]⟩
    ⟨Except.ok 1, Except.ok sampleStats, [tickOk sampleStats2, Ev.signal]⟩
    [TraceEv.readStats, TraceEv.readStats,
      TraceEv.emitDelta false sampleStats sampleStats2,
      TraceEv.emitSummary false sampleStats sampleStats2]
    (by decide) (by decide)
  exact ⟨by simpa using h.1, by simpa using h.2⟩
